import Mathlib

/-!
A shallow embedding, in Lean 4, of the SGP30 sensor driver (`sgp30.py`):
the CRC-8 checksum engine, the checksummed-word codec, the command
registry, and the transaction layer (`_run_command` and the measurement
operations built on it), together with theorems checking the design
document's claims about them.

Modelling conventions:
* Python integers become `Nat`; bit operations (`^`, `<<`, `&`) become
  `^^^`, `<<<`, `&&&` with explicit `&&& 0xFF` masks exactly where the
  source masks.
* Python exceptions become `Except` values.  The source signals failures
  with `assert` statements and `struct.error`; the design document gives
  those failure points names (`ChecksumMismatchError`,
  `UnsupportedCapabilityError`, `ArgumentCountError`, `InvalidWordError`,
  `NotReadyError`), and the error type below uses those names for the
  corresponding failure points of the code.  The checksum-mismatch and
  short-buffer errors record the triplet index at which
  `_read_checksummed_words` stops iterating.
* Bus I/O is modelled by threading an explicit read buffer (`busData`,
  the bytes the device would serve) and returning the list of write
  transactions actually performed, so "zero bytes written" is the
  statement that this list is empty.
-/

namespace SGP30Model

/-- `_SGP30_CRC_INIT = 0xff`. -/
def _SGP30_CRC_INIT : Nat := 0xff

/-- `_SGP30_CRC_POLYNOMIAL = 0x31`. -/
def _SGP30_CRC_POLYNOMIAL : Nat := 0x31

/-- `_SGP30_FEATURE_SET_BITMASK = 0b0000000011100000` (bits 5-7). -/
def _SGP30_FEATURE_SET_BITMASK : Nat := 0b0000000011100000

/-- One iteration of the inner loop of `SGP30._crc`:
`if crc & 0x80: crc = (crc << 1) ^ _SGP30_CRC_POLYNOMIAL else: crc <<= 1`.
Note the source does *not* mask to 8 bits here. -/
def crcShift (crc : Nat) : Nat :=
  if crc &&& 0x80 ≠ 0 then (crc <<< 1) ^^^ _SGP30_CRC_POLYNOMIAL else crc <<< 1

/-- `n` iterations of `crcShift` (the source runs `for _ in range(8)`). -/
def crcRounds : Nat → Nat → Nat
  | 0, crc => crc
  | n + 1, crc => crcRounds n (crcShift crc)

/-- `SGP30._crc`: start from `_SGP30_CRC_INIT`, XOR each data byte in and run
8 shift rounds, and mask to 8 bits once at the very end (`return crc & 0xFF`). -/
def _crc (data : List Nat) : Nat :=
  (data.foldl (fun crc b => crcRounds 8 (crc ^^^ b)) _SGP30_CRC_INIT) &&& 0xFF

/-- One shift round as the design document words it (§4.1): shift left by one
and conditionally XOR the polynomial, *masking to 8 bits after every shift*. -/
def crcShiftSpec (crc : Nat) : Nat :=
  if crc &&& 0x80 ≠ 0 then ((crc <<< 1) ^^^ _SGP30_CRC_POLYNOMIAL) &&& 0xFF
  else (crc <<< 1) &&& 0xFF

/-- `n` iterations of `crcShiftSpec`. -/
def crcRoundsSpec : Nat → Nat → Nat
  | 0, crc => crc
  | n + 1, crc => crcRoundsSpec n (crcShiftSpec crc)

/-- The checksum algorithm exactly as §4.1 of the design document describes
it: an 8-bit accumulator maintained throughout, masked after every shift,
returned without a final mask. -/
def crcSpec (data : List Nat) : Nat :=
  data.foldl (fun crc b => crcRoundsSpec 8 (crc ^^^ b)) _SGP30_CRC_INIT

lemma and255_eq_mod (c : Nat) : c &&& 255 = c % 256 := by
  have h := Nat.and_pow_two_sub_one_eq_mod c 8
  norm_num at h
  exact h

lemma and255_of_lt {c : Nat} (h : c < 256) : c &&& 255 = c := by
  rw [and255_eq_mod]
  exact Nat.mod_eq_of_lt h

lemma and255_and128 (c : Nat) : (c &&& 255) &&& 128 = c &&& 128 := by
  rw [Nat.land_assoc]
  have h : (255 : Nat) &&& 128 = 128 := by decide
  rw [h]

lemma shiftLeft_one_and255 (c : Nat) : ((c &&& 255) <<< 1) &&& 255 = (c <<< 1) &&& 255 := by
  simp only [Nat.shiftLeft_eq, and255_eq_mod, pow_one]
  omega

lemma xor_byte_and255 {b : Nat} (hb : b < 256) (c : Nat) :
    (c ^^^ b) &&& 255 = (c &&& 255) ^^^ b := by
  rw [Nat.and_xor_distrib_right]
  congr 1
  exact and255_of_lt hb

/-- The low 8 bits of an unmasked shift round agree with a masked shift round
on the low 8 bits: bits above position 7 never influence the branch condition
(which tests bit 7 only) nor the polynomial XOR (0x31 < 0x100). -/
lemma crcShift_and255 (c : Nat) : crcShift c &&& 255 = crcShiftSpec (c &&& 255) := by
  unfold crcShift crcShiftSpec _SGP30_CRC_POLYNOMIAL
  simp only [apply_ite (fun x => x &&& 255), and255_and128]
  by_cases h : c &&& 128 ≠ 0
  · rw [if_pos h, if_pos h, xor_byte_and255 (by norm_num), xor_byte_and255 (by norm_num),
      shiftLeft_one_and255]
  · rw [if_neg h, if_neg h, shiftLeft_one_and255]

lemma crcRounds_and255 (n : Nat) : ∀ c, crcRounds n c &&& 255 = crcRoundsSpec n (c &&& 255) := by
  induction n with
  | zero => intro c; rfl
  | succ n ih =>
    intro c
    show crcRounds n (crcShift c) &&& 255 = crcRoundsSpec n (crcShiftSpec (c &&& 255))
    rw [ih, crcShift_and255]

lemma crcFold_and255 : ∀ (data : List Nat), (∀ b ∈ data, b < 256) → ∀ c,
    (data.foldl (fun crc b => crcRounds 8 (crc ^^^ b)) c) &&& 255
      = data.foldl (fun crc b => crcRoundsSpec 8 (crc ^^^ b)) (c &&& 255) := by
  intro data
  induction data with
  | nil => intro _ c; rfl
  | cons b rest ih =>
    intro hb c
    simp only [List.foldl_cons]
    rw [ih (fun x hx => hb x (List.mem_cons_of_mem _ hx))]
    congr 1
    rw [crcRounds_and255, xor_byte_and255 (hb b (List.mem_cons_self _ _))]

/-- `SGP30._crc` computes exactly the checksum of §4.1 on byte inputs. -/
lemma crc_eq_crcSpec (data : List Nat) (h : ∀ b ∈ data, b < 256) : _crc data = crcSpec data := by
  unfold _crc crcSpec _SGP30_CRC_INIT
  rw [crcFold_and255 data h 255]
  congr 1

/-- C1: `SGP30._crc` implements the specified CRC-8 variant (init 0xFF, XOR
each byte in, 8 shift rounds with conditional XOR of 0x31 when bit 7 is set,
result reduced to 8 bits), and on the byte sequence [0xBE, 0xEF] it returns
0x92. -/
theorem crc_implements_specified_variant (data : List Nat) (h : ∀ b ∈ data, b < 256) :
    _crc data = crcSpec data ∧ _crc [0xBE, 0xEF] = 0x92 :=
  ⟨crc_eq_crcSpec data h, by decide⟩

/-- Witness for C1 at the concrete input [0xBE, 0xEF]. -/
theorem crc_implements_specified_variant_witness :
    _crc [0xBE, 0xEF] = crcSpec [0xBE, 0xEF] ∧ _crc [0xBE, 0xEF] = 0x92 :=
  crc_implements_specified_variant [0xBE, 0xEF] (by decide)

/-- C10: the source masks the accumulator to 8 bits only once, after all
bytes are processed, while the reference algorithm masks after every shift;
on every byte sequence the two variants agree, because bits shifted above
position 7 never feed back into the low 8 bits. -/
theorem crc_late_mask_eq_per_shift_mask (data : List Nat) (h : ∀ b ∈ data, b < 256) :
    (data.foldl (fun crc b => crcRounds 8 (crc ^^^ b)) _SGP30_CRC_INIT) &&& 0xFF
      = crcSpec data :=
  crc_eq_crcSpec data h

/-- Witness for C10 at the concrete input [0x12, 0x34]. -/
theorem crc_late_mask_eq_per_shift_mask_witness :
    ([0x12, 0x34].foldl (fun crc b => crcRounds 8 (crc ^^^ b)) _SGP30_CRC_INIT) &&& 0xFF
      = crcSpec [0x12, 0x34] :=
  crc_late_mask_eq_per_shift_mask [0x12, 0x34] (by decide)

/-- Outcome of decoding one triplet in `SGP30._read_checksummed_word`:
`struct.unpack_from` fails on a too-short buffer, the `assert` fails on a
checksum mismatch. -/
inductive WordError where
  | short
  | badChecksum
deriving DecidableEq

/-- The driver's failure modes, named as in §7 of the design document.
The source raises `AssertionError` / `struct.error` at these points; the
constructors record which check failed, and for the decode loop, the
triplet index at which `_read_checksummed_words` stopped iterating.
`notReady` appears in the document's taxonomy; it is part of the type so
that claims about it can be stated. `assertionFailed` stands for the
remaining always-true internal `assert`s (and Python `TypeError`s) that the
document gives no name. -/
inductive SGPError where
  | checksumMismatch (index : Nat)
  | shortBuffer (index : Nat)
  | invalidWord
  | unsupportedCapability
  | argumentCount
  | busTransport
  | notReady
  | assertionFailed
deriving DecidableEq

/-- `SGP30._read_checksummed_word`: read `data[offset]`, `data[offset+1]`
(`struct.unpack_from('>HB', ...)` fails if fewer than 3 bytes remain), check
the third byte against `_crc` of the first two, and return the big-endian
word. -/
def _read_checksummed_word (data : List Nat) (offset : Nat) : Except WordError Nat :=
  match data[offset]?, data[offset + 1]?, data[offset + 2]? with
  | some b0, some b1, some ck =>
    if ck = _crc [b0, b1] then Except.ok (b0 * 256 + b1) else Except.error WordError.badChecksum
  | _, _, _ => Except.error WordError.short

/-- The loop of `SGP30._read_checksummed_words`: `i` is the current triplet
index (`offset = 3 * i`), the second argument the number of triplets still to
read.  A failing triplet aborts the whole decode with its index. -/
def readWordsAux (data : List Nat) : Nat → Nat → Except SGPError (List Nat)
  | _, 0 => Except.ok []
  | i, n + 1 =>
    match _read_checksummed_word data (3 * i) with
    | Except.error WordError.short => Except.error (SGPError.shortBuffer i)
    | Except.error WordError.badChecksum => Except.error (SGPError.checksumMismatch i)
    | Except.ok w =>
      match readWordsAux data (i + 1) n with
      | Except.error e => Except.error e
      | Except.ok ws => Except.ok (w :: ws)

/-- `SGP30._read_checksummed_words data count`. -/
def _read_checksummed_words (data : List Nat) (count : Nat) : Except SGPError (List Nat) :=
  readWordsAux data 0 count

/-- `struct.pack('>H', w)`: the big-endian byte pair of a 16-bit word. -/
def wordBytes (w : Nat) : List Nat := [w / 256, w % 256]

/-- `SGP30._bytes_for_checksummed_words`: for each word append its big-endian
bytes and their `_crc`; `struct.pack('>H', ...)` fails on a word that does not
fit 16 bits (the source comment: let the error from struct.pack handle it). -/
def _bytes_for_checksummed_words : List Nat → Except SGPError (List Nat)
  | [] => Except.ok []
  | w :: ws =>
    if 0xFFFF < w then Except.error SGPError.invalidWord
    else
      match _bytes_for_checksummed_words ws with
      | Except.error e => Except.error e
      | Except.ok rest => Except.ok (wordBytes w ++ [_crc (wordBytes w)] ++ rest)

lemma enc_ok_of_le : ∀ (ws : List Nat), (∀ w ∈ ws, w ≤ 0xFFFF) →
    ∃ bs, _bytes_for_checksummed_words ws = Except.ok bs := by
  intro ws
  induction ws with
  | nil => intro _; exact ⟨[], rfl⟩
  | cons w rest ih =>
    intro h
    obtain ⟨bs, hbs⟩ := ih (fun x hx => h x (List.mem_cons_of_mem _ hx))
    refine ⟨wordBytes w ++ [_crc (wordBytes w)] ++ bs, ?_⟩
    have hw : ¬ 0xFFFF < w := Nat.not_lt.mpr (h w (List.mem_cons_self _ _))
    simp [_bytes_for_checksummed_words, hw, hbs]

lemma enc_error_of_over : ∀ (ws : List Nat), (∃ w ∈ ws, 0xFFFF < w) →
    _bytes_for_checksummed_words ws = Except.error SGPError.invalidWord := by
  intro ws
  induction ws with
  | nil => rintro ⟨w, hw, _⟩; cases hw
  | cons w rest ih =>
    rintro ⟨x, hx, hover⟩
    by_cases hw : 0xFFFF < w
    · simp [_bytes_for_checksummed_words, hw]
    · rcases List.mem_cons.mp hx with h | h
      · exact absurd (h ▸ hover) hw
      · have := ih ⟨x, h, hover⟩
        simp [_bytes_for_checksummed_words, hw, this]

lemma enc_ok_length : ∀ (ws bs : List Nat),
    _bytes_for_checksummed_words ws = Except.ok bs → bs.length = 3 * ws.length := by
  intro ws
  induction ws with
  | nil =>
    intro bs h
    simp only [_bytes_for_checksummed_words] at h
    cases h
    rfl
  | cons w rest ih =>
    intro bs h
    simp only [_bytes_for_checksummed_words] at h
    by_cases hw : 0xFFFF < w
    · rw [if_pos hw] at h; cases h
    · rw [if_neg hw] at h
      rcases henc : _bytes_for_checksummed_words rest with e | tail
      · rw [henc] at h; cases h
      · rw [henc] at h
        cases h
        have := ih tail henc
        simp [wordBytes, this]
        ring

/-- Decoding the encoding, at a general starting triplet index: if `pre` holds
the first `3 * i` bytes, decoding `ws.length` triplets of `pre ++ bs` starting
at index `i` recovers `ws`. -/
lemma readWordsAux_of_enc : ∀ (ws : List Nat), (∀ w ∈ ws, w ≤ 0xFFFF) →
    ∀ (bs : List Nat), _bytes_for_checksummed_words ws = Except.ok bs →
    ∀ (pre : List Nat) (i : Nat), pre.length = 3 * i →
    readWordsAux (pre ++ bs) i ws.length = Except.ok ws := by
  intro ws
  induction ws with
  | nil =>
    intro _ bs h pre i _
    simp only [_bytes_for_checksummed_words] at h
    cases h
    rfl
  | cons w rest ih =>
    intro hle bs h pre i hpre
    have hw : ¬ 0xFFFF < w := Nat.not_lt.mpr (hle w (List.mem_cons_self _ _))
    simp only [_bytes_for_checksummed_words, if_neg hw] at h
    rcases henc : _bytes_for_checksummed_words rest with e | tail
    · rw [henc] at h; cases h
    · rw [henc] at h
      cases h
      have hbs : wordBytes w ++ [_crc (wordBytes w)] ++ tail
          = (w / 256) :: (w % 256) :: _crc (wordBytes w) :: tail := by
        simp [wordBytes]
      rw [hbs]
      have hget : ∀ (x : Nat) (l : List Nat) (k : Nat), k = pre.length →
          (pre ++ x :: l)[k]? = some x := by
        intro x l k hk
        rw [hk, List.getElem?_append_right (Nat.le_refl _), Nat.sub_self,
          List.getElem?_cons_zero]
      have h0 : (pre ++ (w / 256) :: (w % 256) :: _crc (wordBytes w) :: tail)[3 * i]?
          = some (w / 256) := hget _ _ _ hpre.symm
      have h1 : (pre ++ (w / 256) :: (w % 256) :: _crc (wordBytes w) :: tail)[3 * i + 1]?
          = some (w % 256) := by
        rw [List.getElem?_append_right (by omega), show 3 * i + 1 - pre.length = 1 by omega]
        simp
      have h2 : (pre ++ (w / 256) :: (w % 256) :: _crc (wordBytes w) :: tail)[3 * i + 2]?
          = some (_crc (wordBytes w)) := by
        rw [List.getElem?_append_right (by omega), show 3 * i + 2 - pre.length = 2 by omega]
        simp
      have hread : _read_checksummed_word
          (pre ++ (w / 256) :: (w % 256) :: _crc (wordBytes w) :: tail) (3 * i)
            = Except.ok (w / 256 * 256 + w % 256) := by
        unfold _read_checksummed_word
        rw [h0, h1, h2]
        simp [wordBytes]
      have hword : w / 256 * 256 + w % 256 = w := by omega
      have htail : readWordsAux
          (pre ++ (w / 256) :: (w % 256) :: _crc (wordBytes w) :: tail) (i + 1) rest.length
            = Except.ok rest := by
        have hassoc : pre ++ (w / 256) :: (w % 256) :: _crc (wordBytes w) :: tail
            = (pre ++ [w / 256, w % 256, _crc (wordBytes w)]) ++ tail := by
          simp
        rw [hassoc]
        exact ih (fun x hx => hle x (List.mem_cons_of_mem _ hx)) tail henc _ (i + 1)
          (by simp [hpre]; omega)
      show readWordsAux _ i (rest.length + 1) = _
      simp [readWordsAux, hread, htail, hword]

/-- C2: round trip — for every sequence of 16-bit words, encoding succeeds,
the encoded output has length exactly `3 * len(words)`, and decoding it with
count `len(words)` yields the original words. -/
theorem encode_decode_roundtrip (words : List Nat) (h : ∀ w ∈ words, w ≤ 0xFFFF) :
    ∃ bs, _bytes_for_checksummed_words words = Except.ok bs
      ∧ bs.length = 3 * words.length
      ∧ _read_checksummed_words bs words.length = Except.ok words := by
  obtain ⟨bs, hbs⟩ := enc_ok_of_le words h
  refine ⟨bs, hbs, enc_ok_length words bs hbs, ?_⟩
  have := readWordsAux_of_enc words h bs hbs [] 0 rfl
  simpa [_read_checksummed_words] using this

/-- Witness for C2 at the concrete word sequence [0xBEEF, 0x1234]. -/
theorem encode_decode_roundtrip_witness :
    ∃ bs, _bytes_for_checksummed_words [0xBEEF, 0x1234] = Except.ok bs
      ∧ bs.length = 3 * ([0xBEEF, 0x1234] : List Nat).length
      ∧ _read_checksummed_words bs ([0xBEEF, 0x1234] : List Nat).length
          = Except.ok [0xBEEF, 0x1234] :=
  encode_decode_roundtrip [0xBEEF, 0x1234] (by decide)

/-- `_read_checksummed_word` only looks at the three bytes of its triplet. -/
lemma read_word_congr (d1 d2 : List Nat) (off : Nat)
    (h0 : d1[off]? = d2[off]?) (h1 : d1[off + 1]? = d2[off + 1]?)
    (h2 : d1[off + 2]? = d2[off + 2]?) :
    _read_checksummed_word d1 off = _read_checksummed_word d2 off := by
  unfold _read_checksummed_word
  rw [h0, h1, h2]

/-- A successfully decoded triplet exposes its three bytes, and its stored
checksum byte equals the recomputed `_crc` of the two data bytes. -/
lemma read_word_ok_elim (data : List Nat) (off w : Nat)
    (h : _read_checksummed_word data off = Except.ok w) :
    ∃ b0 b1, data[off]? = some b0 ∧ data[off + 1]? = some b1
      ∧ data[off + 2]? = some (_crc [b0, b1]) ∧ w = b0 * 256 + b1 := by
  unfold _read_checksummed_word at h
  rcases e0 : data[off]? with _ | b0 <;> rw [e0] at h
  · cases h
  rcases e1 : data[off + 1]? with _ | b1 <;> rw [e1] at h
  · cases h
  rcases e2 : data[off + 2]? with _ | ck <;> rw [e2] at h
  · cases h
  have h' : (if ck = _crc [b0, b1] then Except.ok (b0 * 256 + b1)
      else Except.error WordError.badChecksum) = Except.ok w := h
  by_cases hck : ck = _crc [b0, b1]
  · rw [if_pos hck] at h'
    cases h'
    exact ⟨b0, b1, rfl, rfl, by rw [hck], rfl⟩
  · rw [if_neg hck] at h'
    cases h'

/-- If the decode loop returns a word list, every triplet it visited decodes
successfully. -/
lemma readWordsAux_ok_words (data : List Nat) : ∀ (n i : Nat) (ws : List Nat),
    readWordsAux data i n = Except.ok ws →
    ∀ j < n, ∃ w, _read_checksummed_word data (3 * (i + j)) = Except.ok w := by
  intro n
  induction n with
  | zero => intro i ws _ j hj; omega
  | succ n ih =>
    intro i ws h j hj
    rcases hr : _read_checksummed_word data (3 * i) with e | w
    · cases e <;> simp [readWordsAux, hr] at h
    · cases j with
      | zero => exact ⟨w, by simpa using hr⟩
      | succ j' =>
        rcases ht : readWordsAux data (i + 1) n with e | ws'
        · simp [readWordsAux, hr, ht] at h
        · obtain ⟨w', hw'⟩ := ih (i + 1) ws' ht j' (by omega)
          refine ⟨w', ?_⟩
          rw [show i + (j' + 1) = i + 1 + j' from by omega]
          exact hw'

/-- The decode loop, started at triplet index `i`, aborts with
`checksumMismatch (i + k)` as soon as it reaches the first triplet whose
stored checksum disagrees (`k` triplets in, all earlier ones fine). -/
lemma readWordsAux_error_at (data : List Nat) : ∀ (n k i : Nat), k < n →
    (∀ j < k, ∃ w, _read_checksummed_word data (3 * (i + j)) = Except.ok w) →
    _read_checksummed_word data (3 * (i + k)) = Except.error WordError.badChecksum →
    readWordsAux data i n = Except.error (SGPError.checksumMismatch (i + k)) := by
  intro n
  induction n with
  | zero => intro k i hk; omega
  | succ n ih =>
    intro k i hk hok hbad
    cases k with
    | zero =>
      have hbad' : _read_checksummed_word data (3 * i) = Except.error WordError.badChecksum := by
        simpa using hbad
      simp [readWordsAux, hbad']
    | succ k' =>
      obtain ⟨w, hw⟩ := hok 0 (Nat.succ_pos k')
      have hw' : _read_checksummed_word data (3 * i) = Except.ok w := by simpa using hw
      have hok' : ∀ j < k', ∃ w, _read_checksummed_word data (3 * (i + 1 + j)) = Except.ok w := by
        intro j hj
        obtain ⟨w', hw'⟩ := hok (j + 1) (by omega)
        refine ⟨w', ?_⟩
        rw [show i + 1 + j = i + (j + 1) from by omega]
        exact hw'
      have hbad' : _read_checksummed_word data (3 * (i + 1 + k'))
          = Except.error WordError.badChecksum := by
        rw [show i + 1 + k' = i + (k' + 1) from by omega]
        exact hbad
      have htail := ih k' (i + 1) (by omega) hok' hbad'
      rw [show i + (k' + 1) = i + 1 + k' from by omega]
      simp [readWordsAux, hw', htail]

/-- C3: decoding processes triplets in order and aborts at the first triplet
whose recomputed checksum differs from the stored checksum byte, with a
checksum-mismatch error carrying that triplet's index and no further triplet
decoded; in particular, flipping any single bit of the checksum byte of any
encoded word makes the decode fail at exactly that word's index. -/
theorem decode_fails_on_first_checksum_mismatch :
    (∀ (data : List Nat) (count i : Nat), i < count →
      (∀ j < i, ∃ w, _read_checksummed_word data (3 * j) = Except.ok w) →
      _read_checksummed_word data (3 * i) = Except.error WordError.badChecksum →
      _read_checksummed_words data count = Except.error (SGPError.checksumMismatch i))
    ∧ (∀ (words : List Nat) (k b : Nat) (bs : List Nat),
      (∀ w ∈ words, w ≤ 0xFFFF) → k < words.length → b < 8 →
      _bytes_for_checksummed_words words = Except.ok bs →
      _read_checksummed_words (bs.set (3 * k + 2) ((bs.getD (3 * k + 2) 0) ^^^ (1 <<< b)))
          words.length = Except.error (SGPError.checksumMismatch k)) := by
  constructor
  · intro data count i hi hok hbad
    have h := readWordsAux_error_at data count i 0 hi
      (by intro j hj; simpa using hok j hj) (by simpa using hbad)
    simpa [_read_checksummed_words] using h
  · intro words k b bs hle hk hb henc
    have hdec : readWordsAux bs 0 words.length = Except.ok words := by
      have := readWordsAux_of_enc words hle bs henc [] 0 rfl
      simpa using this
    have htrip := readWordsAux_ok_words bs words.length 0 words hdec
    obtain ⟨w, hwk⟩ := htrip k hk
    rw [show 3 * (0 + k) = 3 * k from by omega] at hwk
    obtain ⟨b0, b1, e0, e1, e2, _⟩ := read_word_ok_elim bs (3 * k) w hwk
    obtain ⟨hlen, hval⟩ := List.getElem?_eq_some.mp e2
    have hgetD : bs.getD (3 * k + 2) 0 = _crc [b0, b1] := by
      rw [List.getD_eq_getElem?_getD, e2]
      rfl
    set m : Nat := 1 <<< b with hm
    set data' : List Nat := bs.set (3 * k + 2) ((bs.getD (3 * k + 2) 0) ^^^ m) with hdata
    have hset_ne : ∀ j : Nat, j ≠ 3 * k + 2 → data'[j]? = bs[j]? := by
      intro j hj
      rw [hdata, List.getElem?_set]
      simp [Ne.symm hj]
    have hset_eq : data'[3 * k + 2]? = some (_crc [b0, b1] ^^^ m) := by
      rw [hdata, List.getElem?_set]
      simp [hlen, hval]
    have hmne : m ≠ 0 := by
      rw [hm, Nat.one_shiftLeft]
      exact pow_ne_zero b (by norm_num)
    have hbadk : _read_checksummed_word data' (3 * k)
        = Except.error WordError.badChecksum := by
      unfold _read_checksummed_word
      rw [hset_ne (3 * k) (by omega), hset_ne (3 * k + 1) (by omega), e0, e1, hset_eq]
      show (if _crc [b0, b1] ^^^ m = _crc [b0, b1] then Except.ok (b0 * 256 + b1)
        else Except.error WordError.badChecksum) = Except.error WordError.badChecksum
      rw [if_neg]
      intro heq
      have h2 := congrArg (fun x => _crc [b0, b1] ^^^ x) heq
      simp [← Nat.xor_assoc, Nat.xor_self, Nat.zero_xor] at h2
      exact hmne h2
    have hprefix : ∀ j < k, ∃ w, _read_checksummed_word data' (3 * j) = Except.ok w := by
      intro j hj
      obtain ⟨w', hw'⟩ := htrip j (by omega)
      rw [show 3 * (0 + j) = 3 * j from by omega] at hw'
      refine ⟨w', ?_⟩
      rw [read_word_congr data' bs (3 * j) (hset_ne _ (by omega)) (hset_ne _ (by omega))
        (hset_ne _ (by omega))]
      exact hw'
    have h := readWordsAux_error_at data' words.length k 0 hk
      (by intro j hj; simpa using hprefix j hj) (by simpa using hbadk)
    simpa [_read_checksummed_words] using h

/-- Witness for C3: flipping bit 0 of the checksum byte of the encoding of
[0xBEEF] makes the decode fail with a checksum mismatch at triplet 0. -/
theorem decode_fails_on_first_checksum_mismatch_witness :
    _read_checksummed_words
        (([0xBE, 0xEF, 0x92] : List Nat).set 2
          ((([0xBE, 0xEF, 0x92] : List Nat).getD 2 0) ^^^ (1 <<< 0))) 1
      = Except.error (SGPError.checksumMismatch 0) := by
  have h := decode_fails_on_first_checksum_mismatch.2 [0xBEEF] 0 0 [0xBE, 0xEF, 0x92]
    (by decide) (by decide) (by decide) (by rfl)
  simpa using h

/-- The `SGP30Command` namedtuple: opcode bytes, optional required feature
set, parameter/response lengths in bytes (3 bytes per checksummed word), and
settle time in milliseconds. -/
structure SGP30Command where
  opcode_bytes : List Nat
  required_feature_set : Option Nat
  parameter_length : Nat
  response_length : Nat
  response_time_ms : Nat
deriving DecidableEq

/-- The keys of the `_SGP30_CMDS` dict, as a closed enumeration. -/
inductive CmdName where
  | get_serial_number
  | get_feature_set_version
  | init_air_quality
  | measure_air_quality
  | get_baseline
  | set_baseline
  | set_humidity
  | measure_raw_signals
deriving DecidableEq

/-- The `_SGP30_CMDS` registry, entry for entry. -/
def _SGP30_CMDS : CmdName → SGP30Command
  | CmdName.get_serial_number => ⟨[0x36, 0x82], none, 0, 9, 1⟩
  | CmdName.get_feature_set_version => ⟨[0x20, 0x2f], none, 0, 3, 2⟩
  | CmdName.init_air_quality => ⟨[0x20, 0x03], some 0x20, 0, 0, 10⟩
  | CmdName.measure_air_quality => ⟨[0x20, 0x08], some 0x20, 0, 6, 12⟩
  | CmdName.get_baseline => ⟨[0x20, 0x15], some 0x20, 0, 6, 10⟩
  | CmdName.set_baseline => ⟨[0x20, 0x1e], some 0x20, 6, 0, 10⟩
  | CmdName.set_humidity => ⟨[0x20, 0x61], some 0x20, 3, 0, 10⟩
  | CmdName.measure_raw_signals => ⟨[0x20, 0x50], some 0x20, 0, 6, 25⟩

/-- The attributes of an `SGP30` session that the transaction layer reads:
`chip_version` (Python `None` until `open()` stores the masked feature-set
value) and whether the SMBus handle is currently open. -/
structure Device where
  chip_version : Option Nat
  busOpen : Bool
deriving DecidableEq

/-- `SGP30._has_feature_set`: `None` means no gating; otherwise the cached
`chip_version` must equal the required value masked to the significant bits
(`self.chip_version == (required_feature_set & _SGP30_FEATURE_SET_BITMASK)`;
a still-unset `chip_version` compares unequal to any number, as Python
`None == int` is `False`). -/
def _has_feature_set (chip_version : Option Nat) (required_feature_set : Option Nat) : Bool :=
  match required_feature_set with
  | none => true
  | some r => chip_version == some (r &&& _SGP30_FEATURE_SET_BITMASK)

/-- `SGP30._run_command`: capability assertion, then the parameter-length
assertion (only when the command takes parameters), then the locked section:
one bus write of opcode plus parameter bytes, the settle sleep, and an
optional read.  The result pairs the list of bus write transactions actually
performed with the outcome; `busData` is the byte stream a read would
return.  A write on a closed bus handle fails as a transport error. -/
def _run_command (dev : Device) (cmd : SGP30Command) (param_bytes : List Nat)
    (busData : List Nat) : List (List Nat) × Except SGPError (Option (List Nat)) :=
  if _has_feature_set dev.chip_version cmd.required_feature_set then
    if 0 < cmd.parameter_length ∧ param_bytes.length ≠ cmd.parameter_length then
      ([], Except.error SGPError.argumentCount)
    else
      let bytes_to_write :=
        if 0 < cmd.parameter_length then cmd.opcode_bytes ++ param_bytes
        else cmd.opcode_bytes
      if dev.busOpen then
        if 0 < cmd.response_length then
          ([bytes_to_write], Except.ok (some (busData.take cmd.response_length)))
        else
          ([bytes_to_write], Except.ok none)
      else
        ([], Except.error SGPError.busTransport)
  else
    ([], Except.error SGPError.unsupportedCapability)

/-- `SGP30._run_word_getter`: look the command up, check its two internal
assertions, run it, and decode the raw response into
`response_length / 3` words. -/
def _run_word_getter (dev : Device) (cmd_name : CmdName) (busData : List Nat) :
    List (List Nat) × Except SGPError (List Nat) :=
  let cmd := _SGP30_CMDS cmd_name
  if cmd.parameter_length = 0 ∧ cmd.response_length % 3 = 0 then
    match _run_command dev cmd [] busData with
    | (log, Except.error e) => (log, Except.error e)
    | (log, Except.ok none) => (log, Except.ok [])
    | (log, Except.ok (some raw)) => (log, _read_checksummed_words raw (cmd.response_length / 3))
  else
    ([], Except.error SGPError.assertionFailed)

/-- `SGP30._run_word_setter`: look the command up, check its three internal
assertions, encode the parameter words, and run the command. -/
def _run_word_setter (dev : Device) (cmd_name : CmdName) (words : List Nat)
    (busData : List Nat) : List (List Nat) × Except SGPError Unit :=
  let cmd := _SGP30_CMDS cmd_name
  if cmd.response_length = 0 ∧ 0 < cmd.parameter_length ∧ cmd.parameter_length % 3 = 0 then
    match _bytes_for_checksummed_words words with
    | Except.error e => ([], Except.error e)
    | Except.ok param_bytes =>
      match _run_command dev cmd param_bytes busData with
      | (log, Except.error e) => (log, Except.error e)
      | (log, Except.ok _) => (log, Except.ok ())
  else
    ([], Except.error SGPError.assertionFailed)

/-- The `AirQuality` namedtuple. -/
structure AirQuality where
  co2_ppm : Nat
  voc_ppb : Nat
deriving DecidableEq

/-- `AirQuality.is_probably_valid`:
`return self.co2_ppm != 400 or self.voc_ppb != 0`. -/
def AirQuality.is_probably_valid (a : AirQuality) : Bool :=
  a.co2_ppm != 400 || a.voc_ppb != 0

/-- `SGP30.measure_air_quality`: run the word getter and build an
`AirQuality` from the two decoded words (`AirQuality(*words)`). -/
def measure_air_quality (dev : Device) (busData : List Nat) :
    List (List Nat) × Except SGPError AirQuality :=
  match _run_word_getter dev CmdName.measure_air_quality busData with
  | (log, Except.error e) => (log, Except.error e)
  | (log, Except.ok [c, v]) => (log, Except.ok ⟨c, v⟩)
  | (log, Except.ok _) => (log, Except.error SGPError.assertionFailed)

/-- `SGP30.get_baseline`: same wire shape as a reading. -/
def get_baseline (dev : Device) (busData : List Nat) :
    List (List Nat) × Except SGPError AirQuality :=
  match _run_word_getter dev CmdName.get_baseline busData with
  | (log, Except.error e) => (log, Except.error e)
  | (log, Except.ok [c, v]) => (log, Except.ok ⟨c, v⟩)
  | (log, Except.ok _) => (log, Except.error SGPError.assertionFailed)

/-- `SGP30.set_baseline`. -/
def set_baseline (dev : Device) (co2_baseline voc_baseline : Nat) (busData : List Nat) :
    List (List Nat) × Except SGPError Unit :=
  _run_word_setter dev CmdName.set_baseline [co2_baseline, voc_baseline] busData

/-- `SGP30.set_humidity`. -/
def set_humidity (dev : Device) (humidity : Nat) (busData : List Nat) :
    List (List Nat) × Except SGPError Unit :=
  _run_word_setter dev CmdName.set_humidity [humidity] busData

/-- `SGP30.measure_raw_signals`: returns the raw decoded word list. -/
def measure_raw_signals (dev : Device) (busData : List Nat) :
    List (List Nat) × Except SGPError (List Nat) :=
  _run_word_getter dev CmdName.measure_raw_signals busData

/-- C4: for a command with a required capability, when the negotiated
capability (masked to the significant bits 5-7, the same mask applied to the
required value) differs from the required value, `_run_command` fails with
the unsupported-capability error and performs zero bus writes. -/
theorem run_command_capability_gating (dev : Device) (cmd : SGP30Command)
    (param_bytes busData : List Nat) (r raw : Nat)
    (hreq : cmd.required_feature_set = some r)
    (hcv : dev.chip_version = some (raw &&& _SGP30_FEATURE_SET_BITMASK))
    (hne : raw &&& _SGP30_FEATURE_SET_BITMASK ≠ r &&& _SGP30_FEATURE_SET_BITMASK) :
    _run_command dev cmd param_bytes busData
      = ([], Except.error SGPError.unsupportedCapability) := by
  have hfs : _has_feature_set dev.chip_version cmd.required_feature_set = false := by
    rw [hreq, hcv]
    simp [_has_feature_set, hne]
  simp [_run_command, hfs]

/-- Witness for C4: required capability 0x0020 against a negotiated (masked)
capability 0x0040 fails with zero bus writes. -/
theorem run_command_capability_gating_witness :
    _run_command ⟨some (0x40 &&& _SGP30_FEATURE_SET_BITMASK), true⟩
        (_SGP30_CMDS CmdName.measure_air_quality) [] []
      = ([], Except.error SGPError.unsupportedCapability) :=
  run_command_capability_gating _ _ _ _ 0x20 0x40 rfl rfl (by decide)

/-- C5 counterexample: a command whose descriptor takes no parameters
(`measure_air_quality`, `parameter_length = 0`), executed with one supplied
parameter word (3 bytes), does not fail with the argument-count error: the
length assertion is skipped entirely, the surplus parameters are silently
dropped, and the transaction proceeds (one bus write of the bare opcode). -/
theorem run_command_ignores_surplus_params :
    _run_command ⟨some 0x20, true⟩ (_SGP30_CMDS CmdName.measure_air_quality)
        [0, 0, 0x81] [1, 2, 3, 4, 5, 6]
      = ([[0x20, 0x08]], Except.ok (some [1, 2, 3, 4, 5, 6]))
    ∧ (_run_command ⟨some 0x20, true⟩ (_SGP30_CMDS CmdName.measure_air_quality)
        [0, 0, 0x81] [1, 2, 3, 4, 5, 6]).2 ≠ Except.error SGPError.argumentCount := by
  refine ⟨rfl, ?_⟩
  intro h
  rw [show (_run_command ⟨some 0x20, true⟩ (_SGP30_CMDS CmdName.measure_air_quality)
      [0, 0, 0x81] [1, 2, 3, 4, 5, 6]).2 = Except.ok (some [1, 2, 3, 4, 5, 6]) from rfl] at h
  cases h

/-- C5 amended: when the capability check passes and the descriptor does take
parameters (`parameter_length > 0`), a supplied parameter byte count
different from the descriptor's fails with the argument-count error before
any bus I/O (zero writes); commands with `parameter_length = 0` silently
ignore whatever parameters are supplied. -/
theorem run_command_argument_count (dev : Device) (cmd : SGP30Command)
    (param_bytes busData : List Nat)
    (hcap : _has_feature_set dev.chip_version cmd.required_feature_set = true)
    (hp : 0 < cmd.parameter_length)
    (hm : param_bytes.length ≠ cmd.parameter_length) :
    _run_command dev cmd param_bytes busData = ([], Except.error SGPError.argumentCount) := by
  simp [_run_command, hcap, hp, hm]

/-- Witness for the amended C5: `set_humidity` (3 parameter bytes) with an
empty parameter list fails with the argument-count error and zero writes. -/
theorem run_command_argument_count_witness :
    _run_command ⟨some 0x20, true⟩ (_SGP30_CMDS CmdName.set_humidity) [] []
      = ([], Except.error SGPError.argumentCount) :=
  run_command_argument_count _ _ _ _ (by decide) (by decide) (by decide)

/-- C6 counterexample: `measure_air_quality` on a session that was never
opened (`chip_version` unset, bus closed) fails, but with the
unsupported-capability error (the capability assertion is the check that
trips, since `None == 0x20` is false), not with a not-ready error: the code
has no readiness check at all. -/
theorem measure_before_open_fails_with_capability_error :
    (measure_air_quality ⟨none, false⟩ []).2 = Except.error SGPError.unsupportedCapability
    ∧ (measure_air_quality ⟨none, false⟩ []).2 ≠ Except.error SGPError.notReady := by
  refine ⟨rfl, ?_⟩
  intro h
  rw [show (measure_air_quality ⟨none, false⟩ []).2
      = Except.error SGPError.unsupportedCapability from rfl] at h
  simp at h

lemma run_command_fails_when_not_ready (dev : Device) (cmd : SGP30Command)
    (param_bytes busData : List Nat)
    (h : dev.chip_version = none ∨ dev.busOpen = false)
    (hreq : cmd.required_feature_set = some 0x20) :
    ∃ e, (_run_command dev cmd param_bytes busData).2 = Except.error e := by
  rcases h with h | h
  · have hfs : _has_feature_set dev.chip_version cmd.required_feature_set = false := by
      rw [hreq, h]
      rfl
    exact ⟨SGPError.unsupportedCapability, by simp [_run_command, hfs]⟩
  · cases hfs : _has_feature_set dev.chip_version cmd.required_feature_set
    · exact ⟨SGPError.unsupportedCapability, by simp [_run_command, hfs]⟩
    · by_cases harg : 0 < cmd.parameter_length ∧ param_bytes.length ≠ cmd.parameter_length
      · exact ⟨SGPError.argumentCount, by simp [_run_command, hfs, harg]⟩
      · exact ⟨SGPError.busTransport, by simp [_run_command, hfs, harg, h]⟩

lemma word_getter_fails_when_not_ready (dev : Device) (name : CmdName)
    (busData : List Nat) (h : dev.chip_version = none ∨ dev.busOpen = false)
    (hreq : (_SGP30_CMDS name).required_feature_set = some 0x20) :
    ∃ e, (_run_word_getter dev name busData).2 = Except.error e := by
  by_cases hassert : (_SGP30_CMDS name).parameter_length = 0
      ∧ (_SGP30_CMDS name).response_length % 3 = 0
  · obtain ⟨e, he⟩ := run_command_fails_when_not_ready dev (_SGP30_CMDS name) [] busData h hreq
    rcases hrc : _run_command dev (_SGP30_CMDS name) [] busData with ⟨log, r⟩
    have hr : r = Except.error e := by
      rw [hrc] at he
      exact he
    subst hr
    exact ⟨e, by simp [_run_word_getter, hassert, hrc]⟩
  · exact ⟨SGPError.assertionFailed, by simp [_run_word_getter, hassert]⟩

lemma word_setter_fails_when_not_ready (dev : Device) (name : CmdName)
    (words busData : List Nat) (h : dev.chip_version = none ∨ dev.busOpen = false)
    (hreq : (_SGP30_CMDS name).required_feature_set = some 0x20) :
    ∃ e, (_run_word_setter dev name words busData).2 = Except.error e := by
  by_cases hassert : (_SGP30_CMDS name).response_length = 0
      ∧ 0 < (_SGP30_CMDS name).parameter_length ∧ (_SGP30_CMDS name).parameter_length % 3 = 0
  · rcases henc : _bytes_for_checksummed_words words with e | param_bytes
    · exact ⟨e, by simp [_run_word_setter, hassert, henc]⟩
    · obtain ⟨e, he⟩ :=
        run_command_fails_when_not_ready dev (_SGP30_CMDS name) param_bytes busData h hreq
      rcases hrc : _run_command dev (_SGP30_CMDS name) param_bytes busData with ⟨log, r⟩
      have hr : r = Except.error e := by
        rw [hrc] at he
        exact he
      subst hr
      exact ⟨e, by simp [_run_word_setter, hassert, henc, hrc]⟩
  · exact ⟨SGPError.assertionFailed, by simp [_run_word_setter, hassert]⟩

/-- C6 amended: every measurement operation invoked while the session is not
ready — `chip_version` still unset (before `open()` completed) or the bus
handle closed (after `close()`) — fails with an error, but there is no
dedicated not-ready error: before `open()` the failing check is the
capability assertion, and after `close()` the bus write itself fails as a
transport error. -/
theorem measurement_ops_fail_when_not_ready (dev : Device) (busData : List Nat)
    (co2_baseline voc_baseline humidity : Nat)
    (h : dev.chip_version = none ∨ dev.busOpen = false) :
    (∃ e, (measure_air_quality dev busData).2 = Except.error e)
    ∧ (∃ e, (get_baseline dev busData).2 = Except.error e)
    ∧ (∃ e, (set_baseline dev co2_baseline voc_baseline busData).2 = Except.error e)
    ∧ (∃ e, (set_humidity dev humidity busData).2 = Except.error e)
    ∧ (∃ e, (measure_raw_signals dev busData).2 = Except.error e) := by
  refine ⟨?_, ?_, ?_, ?_, ?_⟩
  · obtain ⟨e, he⟩ :=
      word_getter_fails_when_not_ready dev CmdName.measure_air_quality busData h rfl
    rcases hg : _run_word_getter dev CmdName.measure_air_quality busData with ⟨log, r⟩
    have hr : r = Except.error e := by
      rw [hg] at he
      exact he
    subst hr
    exact ⟨e, by simp [measure_air_quality, hg]⟩
  · obtain ⟨e, he⟩ := word_getter_fails_when_not_ready dev CmdName.get_baseline busData h rfl
    rcases hg : _run_word_getter dev CmdName.get_baseline busData with ⟨log, r⟩
    have hr : r = Except.error e := by
      rw [hg] at he
      exact he
    subst hr
    exact ⟨e, by simp [get_baseline, hg]⟩
  · exact word_setter_fails_when_not_ready dev CmdName.set_baseline
      [co2_baseline, voc_baseline] busData h rfl
  · exact word_setter_fails_when_not_ready dev CmdName.set_humidity [humidity] busData h rfl
  · exact word_getter_fails_when_not_ready dev CmdName.measure_raw_signals busData h rfl

/-- Witness for the amended C6: a session whose bus was closed again after a
successful negotiation (chip_version 0x20, bus closed). -/
theorem measurement_ops_fail_when_not_ready_witness :
    (∃ e, (measure_air_quality ⟨some 0x20, false⟩ []).2 = Except.error e)
    ∧ (∃ e, (get_baseline ⟨some 0x20, false⟩ []).2 = Except.error e)
    ∧ (∃ e, (set_baseline ⟨some 0x20, false⟩ 0 0 []).2 = Except.error e)
    ∧ (∃ e, (set_humidity ⟨some 0x20, false⟩ 0 []).2 = Except.error e)
    ∧ (∃ e, (measure_raw_signals ⟨some 0x20, false⟩ []).2 = Except.error e) :=
  measurement_ops_fail_when_not_ready ⟨some 0x20, false⟩ [] 0 0 0 (Or.inr rfl)

/-- C7: the registry holds exactly the eight tabulated commands — opcodes,
capability requirement only on the last six, parameter word counts
(0,0,0,0,0,2,1,0) and response word counts (3,1,0,2,2,0,0,2) as byte lengths
of 3 bytes per word, settle times (1,2,10,12,10,10,10,25) ms — and no entry
both takes parameters and returns a response. -/
theorem registry_matches_table :
    _SGP30_CMDS CmdName.get_serial_number = ⟨[0x36, 0x82], none, 3 * 0, 3 * 3, 1⟩
    ∧ _SGP30_CMDS CmdName.get_feature_set_version = ⟨[0x20, 0x2f], none, 3 * 0, 3 * 1, 2⟩
    ∧ _SGP30_CMDS CmdName.init_air_quality = ⟨[0x20, 0x03], some 0x20, 3 * 0, 3 * 0, 10⟩
    ∧ _SGP30_CMDS CmdName.measure_air_quality = ⟨[0x20, 0x08], some 0x20, 3 * 0, 3 * 2, 12⟩
    ∧ _SGP30_CMDS CmdName.get_baseline = ⟨[0x20, 0x15], some 0x20, 3 * 0, 3 * 2, 10⟩
    ∧ _SGP30_CMDS CmdName.set_baseline = ⟨[0x20, 0x1e], some 0x20, 3 * 2, 3 * 0, 10⟩
    ∧ _SGP30_CMDS CmdName.set_humidity = ⟨[0x20, 0x61], some 0x20, 3 * 1, 3 * 0, 10⟩
    ∧ _SGP30_CMDS CmdName.measure_raw_signals = ⟨[0x20, 0x50], some 0x20, 3 * 0, 3 * 2, 25⟩
    ∧ ∀ n : CmdName,
        (_SGP30_CMDS n).parameter_length = 0 ∨ (_SGP30_CMDS n).response_length = 0 := by
  refine ⟨by decide, by decide, by decide, by decide, by decide, by decide,
    by decide, by decide, ?_⟩
  intro n
  cases n <;> simp [_SGP30_CMDS]

/-- C8: encoding fails with the invalid-word error whenever some input word
exceeds 16 bits, and succeeds on every sequence of in-range words. -/
theorem encode_rejects_oversized_words (words : List Nat) :
    ((∃ w ∈ words, 0xFFFF < w) →
      _bytes_for_checksummed_words words = Except.error SGPError.invalidWord)
    ∧ ((∀ w ∈ words, w ≤ 0xFFFF) →
      ∃ bs, _bytes_for_checksummed_words words = Except.ok bs) :=
  ⟨enc_error_of_over words, enc_ok_of_le words⟩

/-- Witness for C8: encoding [0x10000] fails with the invalid-word error. -/
theorem encode_rejects_oversized_words_witness :
    _bytes_for_checksummed_words [0x10000] = Except.error SGPError.invalidWord :=
  (encode_rejects_oversized_words [0x10000]).1 ⟨0x10000, by decide, by decide⟩

/-- C9: `is_probably_valid` is false exactly on the power-on default pair
(400, 0) and true on every other pair; in particular false at (400, 0) and
true at (450, 12). -/
theorem is_probably_valid_characterization :
    (∀ c v : Nat, (AirQuality.mk c v).is_probably_valid = false ↔ c = 400 ∧ v = 0)
    ∧ (AirQuality.mk 400 0).is_probably_valid = false
    ∧ (AirQuality.mk 450 12).is_probably_valid = true := by
  refine ⟨?_, by decide, by decide⟩
  intro c v
  simp [AirQuality.is_probably_valid]

/-- Witness for C9 at the concrete reading (400, 0). -/
theorem is_probably_valid_characterization_witness :
    (AirQuality.mk 400 0).is_probably_valid = false :=
  (is_probably_valid_characterization.1 400 0).mpr ⟨rfl, rfl⟩

end SGP30Model
